import Mathlib

/-!
Verification development for the media backend (src/backend/main.py).

The file gives a shallow embedding of the parts of the program the claims
concern: the deduplicating serial ingest queue, the worker stabilize loop,
the per-file processing routine (extension check, audio probe, transcode
command selection, HLS generation, subtitle extraction, source cleanup),
and the byte-range streaming handler.  External tool invocations (ffmpeg,
ffprobe) are black boxes; an `Env` record carries their outcomes for one
`process` run, and filesystem effects are tracked on an explicit `FS`
state.  Machine-level concerns (actual bytes on disk, logging text) are
abstracted; the control flow and the state effects follow the Python
source line by line.
-/

namespace MediaServer

/-! ### Path helpers: os.path.basename and os.path.splitext -/

/-- Characters after the last slash, as in posixpath.basename. -/
def basenameChars (p : List Char) : List Char :=
  (p.reverse.takeWhile (fun c => c != '/')).reverse

/-- Extension of a basename, as in posixpath.splitext: the suffix from the
last dot on, provided some character before that dot (within the basename)
is not itself a dot; otherwise empty.  CPython: find the last dot; if every
character of the basename before it is a dot, there is no extension. -/
def splitextExt (b : List Char) : List Char :=
  let after := b.reverse.takeWhile (fun c => c != '.')
  if after.length = b.length then []
  else
    let pre := b.take (b.length - after.length - 1)
    if pre.any (fun c => c != '.') then b.drop (b.length - after.length - 1)
    else []

/-- Model of os.path.splitext(src)[1].lower() from process (main.py line 106). -/
def extOf (src : String) : String :=
  ((splitextExt (basenameChars src.data)).map Char.toLower).asString

/-- Model of os.path.splitext(os.path.basename(src))[0] (main.py line 111):
the media title derived from the source filename. -/
def nameOf (src : String) : String :=
  let b := basenameChars src.data
  (b.take (b.length - (splitextExt b).length)).asString

/-- The extension filter of process (main.py line 107). -/
def supportedExts : List String := [".mkv", ".mp4"]

/-! ### Filesystem state and the environment of one process run -/

/-- Abstract filesystem state: files present in the intake (uploads)
directory, title subdirectories of the published-media directory, and
files inside title subdirectories as (title, relative path) pairs.  The
hls subdirectory and its playlist are tracked as entries of mediaFiles. -/
structure FS where
  intake : List String
  mediaDirs : List String
  mediaFiles : List (String × String)
deriving DecidableEq, Repr

/-- Effect of os.makedirs(dest_dir, exist_ok=True) (main.py line 113). -/
def addDir (d : String) (fs : FS) : FS :=
  if d ∈ fs.mediaDirs then fs
  else { fs with mediaDirs := fs.mediaDirs ++ [d] }

/-- Effect of an external tool successfully writing file f into title
directory t (ffmpeg -y overwrites, so re-adding an existing file is a
no-op on the abstract file set). -/
def addFile (t f : String) (fs : FS) : FS :=
  if (t, f) ∈ fs.mediaFiles then fs
  else { fs with mediaFiles := fs.mediaFiles ++ [(t, f)] }

/-- Outcomes of the external ffprobe/ffmpeg invocations during one
process(src) run.  acodec is the audio_codec probe result (main.py lines
54 to 69): none models a non-zero ffprobe exit.  transcodeOk, hlsOk and
subExtractOk model the return codes of the three ffmpeg runs.  hasSubs
models the parsed subtitle-probe output (false also covers a probe or
JSON parse failure, main.py lines 178 to 181). -/
structure Env where
  acodec : Option String
  transcodeOk : Bool
  hlsOk : Bool
  hasSubs : Bool
  subExtractOk : Bool
deriving DecidableEq, Repr

/-! ### Transcode command selection (main.py lines 116 to 151) -/

/-- The stream-copy rewrap command built when the probed audio codec is
already aac (main.py lines 120 to 130). -/
def copyCmd (src dst : String) : List String :=
  ["ffmpeg", "-y", "-i", src, "-c", "copy", "-movflags", "+faststart", dst]

/-- The video-copy, audio re-encode command built otherwise (main.py lines
133 to 151): aac, 2 channels, 128k bitrate, 48000 Hz sample rate. -/
def reencodeCmd (src dst : String) : List String :=
  ["ffmpeg", "-y", "-i", src, "-c:v", "copy", "-c:a", "aac", "-ac", "2",
   "-b:a", "128k", "-ar", "48000", "-movflags", "+faststart", dst]

/-- The command process runs, chosen from the probe result (main.py line
118): the rewrap exactly when the probe returned aac. -/
def transcodeCmd (acodec : Option String) (src dst : String) : List String :=
  if acodec = some "aac" then copyCmd src dst else reencodeCmd src dst

/-! ### generate_hls (main.py lines 72 to 101) -/

/-- generate_hls: always creates the hls subdirectory, then the segmenting
ffmpeg run writes the playlist and segments (tracked as one entry) iff it
exits zero; failure is only logged. -/
def generateHls (title : String) (env : Env) (fs : FS) : FS :=
  let fs1 := addFile title "hls/" fs
  if env.hlsOk then addFile title "hls/index.m3u8" fs1 else fs1

/-! ### process (main.py lines 104 to 193) -/

/-- The tail of process after a successful transcode (main.py lines 158 to
193): the progressive mp4 exists, HLS and subtitles are attempted
best-effort, and finally os.remove(src) deletes the source from the
intake directory. -/
def publishSuccess (src name : String) (env : Env) (fs1 : FS) : FS :=
  let fs2 := addFile name (name ++ ".mp4") fs1
  let fs3 := generateHls name env fs2
  let fs4 :=
    if env.hasSubs && env.subExtractOk then addFile name (name ++ ".vtt") fs3
    else fs3
  { fs4 with intake := fs4.intake.filter (fun p => p != src) }

/-- process(src): skip unsupported extensions; create the title directory;
run transcodeCmd env.acodec (its success is env.transcodeOk) and return on
failure with nothing else changed; on success continue with
publishSuccess. -/
def process (src : String) (env : Env) (fs : FS) : FS :=
  if extOf src ∈ supportedExts then
    let name := nameOf src
    let fs1 := addDir name fs
    if env.transcodeOk then publishSuccess src name env fs1
    else fs1
  else fs

/-! ### The deduplicating serial queue (main.py lines 202 to 246) -/

/-- State of the ingest queue: the _QUEUED dedup set (a path stays in it
from enqueue until the worker finishes processing it, so it covers both
pending and running paths) and the _PROCESS_Q FIFO.  The set is modelled
as a duplicate-free list. -/
structure QState where
  queued : List String
  fifo : List String
deriving DecidableEq, Repr

/-- The enqueue operation (main.py lines 207 to 214): under the lock, a
path already in the dedup set is a no-op; otherwise it joins the set and
the FIFO. -/
def enqueue (path : String) (s : QState) : QState :=
  if path ∈ s.queued then s
  else { queued := s.queued ++ [path], fifo := s.fifo ++ [path] }

/-- The sequence of paths the worker hands to process when it drains the
FIFO with no further enqueues: every dequeued item is processed exactly
once, and the dedup set entry is discarded afterwards (main.py lines 244
to 245).  The set does not influence which items get processed. -/
def drainFrom : List String → List String → List String
  | _, [] => []
  | qd, p :: rest => p :: drainFrom (qd.erase p) rest

/-- Drain the queue state: the processing sequence of the worker loop. -/
def drain (s : QState) : List String :=
  drainFrom s.queued s.fifo

/-! ### The worker stabilize loop (main.py lines 217 to 246) -/

/-- Result of the size-polling loop.  stable k: the read at index k (0
based) equalled the previous read, so the loop broke out of polling after
k+1 reads.  vanished k: the read at index k raised FileNotFoundError,
which also breaks out of polling.  hang: the observed trace ended with
the loop still polling. -/
inductive StabResult where
  | stable (k : Nat) : StabResult
  | vanished (k : Nat) : StabResult
  | hang : StabResult
deriving DecidableEq, Repr

/-- The polling loop (main.py lines 224 to 237): last_size starts at -1;
each iteration reads the size (none models FileNotFoundError), breaks if
it equals the previous read, else records it and sleeps one full polling
interval (2 seconds) before the next read. -/
def stabilize : List (Option Nat) → Int → Nat → StabResult
  | [], _, _ => .hang
  | none :: _, _, k => .vanished k
  | some s :: rest, last, k =>
      if (s : Int) = last then .stable k else stabilize rest s (k + 1)

/-- One worker iteration for a dequeued path: run the polling loop on the
observed size trace, and afterwards call process(path) (main.py line 240).
The call is reached on BOTH exits of the loop, the stable one and the
vanished one, because the break only leaves the inner polling loop. -/
def workerBody (reads : List (Option Nat)) (src : String) (env : Env) (fs : FS) : FS :=
  match stabilize reads (-1) 0 with
  | .stable _ => process src env fs
  | .vanished _ => process src env fs
  | .hang => fs

/-! ### Byte-range streaming (main.py lines 378 to 418) -/

/-- Python str.replace("bytes=", "") on the range header (main.py line
395): every non-overlapping occurrence, scanned left to right. -/
def replaceBytesEq : List Char → List Char
  | 'b' :: 'y' :: 't' :: 'e' :: 's' :: '=' :: rest => replaceBytesEq rest
  | c :: rest => c :: replaceBytesEq rest
  | [] => []

/-- Python str.split on a single dash (main.py line 396): the list of
dash-free segments, one more segment than there are dashes. -/
def splitDash : List Char → List (List Char)
  | [] => [[]]
  | '-' :: rest => [] :: splitDash rest
  | c :: rest =>
      match splitDash rest with
      | [] => [[c]]
      | p :: ps => (c :: p) :: ps

/-- Python int() on a range field: a nonempty digit string parses to its
value, anything else raises ValueError (modelled as none).  Python also
tolerates surrounding whitespace and an explicit sign, which no claim
exercises. -/
def decodeNat (cs : List Char) : Option Nat :=
  if cs = [] then none
  else if cs.all Char.isDigit then
    some (cs.foldl (fun acc c => acc * 10 + (c.toNat - 48)) 0)
  else none

/-- Parse the range header body (main.py lines 395 to 398): strip bytes=,
split on the dash; exactly two fields must result (otherwise the tuple
unpacking raises), the first must parse as an int, and the second either
is empty (end defaults later) or must parse as an int.  none models an
uncaught ValueError. -/
def parseRange (h : String) : Option (Nat × Option Nat) :=
  match splitDash (replaceBytesEq h.data) with
  | [a, b] =>
      match decodeNat a with
      | none => none
      | some start =>
          if b = [] then some (start, none)
          else
            match decodeNat b with
            | none => none
            | some e => some (start, some e)
  | _ => none

/-- The Content-Range header value, f-string bytes start-end/size
(main.py line 414). -/
def contentRange (start : Nat) (endB : Int) (size : Nat) : String :=
  "bytes " ++ toString start ++ "-" ++ toString endB ++ "/" ++ toString size

/-- Response of the stream_video handler.  notFound is the 404
HTTPException; full is the status 200 branch with its Content-Length and
Accept-Ranges headers; ranged is the status 206 branch with the resolved
start, resolved inclusive end, Content-Range header, Accept-Ranges, and
Content-Length (the computed chunk, which the code never checks for
negativity); raised models an exception escaping the handler uncaught. -/
inductive Resp where
  | notFound : Resp
  | full (contentLength : Nat) (acceptRanges : Bool) : Resp
  | ranged (start : Nat) (endB : Int) (contentRangeHdr : String)
      (acceptRanges : Bool) (contentLength : Int) : Resp
  | raised : Resp
deriving DecidableEq, Repr

/-- Resolution of the end offset (main.py lines 398 to 399): end defaults
to size - 1 when its field was empty, and is then clamped with min
against size - 1 (in the default case the min is applied to size - 1
itself, as in the code). -/
def resolvedEnd : Nat → Option Nat → Int
  | size, some e => min (e : Int) ((size : Int) - 1)
  | size, none => min ((size : Int) - 1) ((size : Int) - 1)

/-- stream_video (main.py lines 378 to 418) for a file of the given size:
404 when the file is absent; the full response when no Range header came;
otherwise parse the header (an unparsable one raises), resolve and clamp
the end offset, and answer 206 with chunk = end - start + 1. -/
def streamVideo (fileExists : Bool) (size : Nat) (rangeHeader : Option String) : Resp :=
  if fileExists then
    match rangeHeader with
    | none => .full size true
    | some h =>
        match parseRange h with
        | none => .raised
        | some (start, endOpt) =>
            let e := resolvedEnd size endOpt
            .ranged start e (contentRange start e size) true (e - (start : Int) + 1)
  else .notFound

/-! ### Helper lemmas -/

theorem addDir_intake (d : String) (fs : FS) : (addDir d fs).intake = fs.intake := by
  unfold addDir
  split <;> rfl

theorem addDir_mediaFiles (d : String) (fs : FS) :
    (addDir d fs).mediaFiles = fs.mediaFiles := by
  unfold addDir
  split <;> rfl

theorem addFile_intake (t f : String) (fs : FS) : (addFile t f fs).intake = fs.intake := by
  unfold addFile
  split <;> rfl

theorem addFile_mem_self (t f : String) (fs : FS) :
    (t, f) ∈ (addFile t f fs).mediaFiles := by
  unfold addFile
  split
  · assumption
  · simp

theorem addFile_mono {x : String × String} (t f : String) (fs : FS)
    (h : x ∈ fs.mediaFiles) : x ∈ (addFile t f fs).mediaFiles := by
  unfold addFile
  split
  · exact h
  · simp [h]

theorem generateHls_mono {x : String × String} (t : String) (env : Env) (fs : FS)
    (h : x ∈ fs.mediaFiles) : x ∈ (generateHls t env fs).mediaFiles := by
  unfold generateHls
  split
  · exact addFile_mono _ _ _ (addFile_mono _ _ _ h)
  · exact addFile_mono _ _ _ h

theorem publishSuccess_mp4_mem (src name : String) (env : Env) (fs1 : FS) :
    (name, name ++ ".mp4") ∈ (publishSuccess src name env fs1).mediaFiles := by
  unfold publishSuccess
  split
  · exact addFile_mono _ _ _ (generateHls_mono _ _ _ (addFile_mem_self _ _ _))
  · exact generateHls_mono _ _ _ (addFile_mem_self _ _ _)

theorem publishSuccess_src_removed (src name : String) (env : Env) (fs1 : FS) :
    src ∉ (publishSuccess src name env fs1).intake := by
  unfold publishSuccess
  split <;> simp [List.mem_filter]

theorem drainFrom_eq (qd fifo : List String) : drainFrom qd fifo = fifo := by
  induction fifo generalizing qd with
  | nil => rfl
  | cons p rest ih => simp [drainFrom, ih]

theorem streamVideo_parsed (S : Nat) (h : String) (start : Nat) (endOpt : Option Nat)
    (hp : parseRange h = some (start, endOpt)) :
    streamVideo true S (some h)
      = .ranged start (resolvedEnd S endOpt)
          (contentRange start (resolvedEnd S endOpt) S) true
          (resolvedEnd S endOpt - (start : Int) + 1) := by
  simp only [streamVideo, hp, if_true]

theorem stabilize_stable_spec (reads : List (Option Nat)) :
    ∀ (last : Int) (j k : Nat),
      stabilize reads last j = .stable k →
      (k = j ∧ ∃ s : Nat, reads.get? 0 = some (some s) ∧ (s : Int) = last)
      ∨ (j < k ∧ ∃ s : Nat, reads.get? (k - j - 1) = some (some s)
          ∧ reads.get? (k - j) = some (some s)) := by
  induction reads with
  | nil =>
      intro last j k h
      simp [stabilize] at h
  | cons r rest ih =>
      intro last j k h
      cases r with
      | none => simp [stabilize] at h
      | some s =>
          simp only [stabilize] at h
          by_cases hs : (s : Int) = last
          · rw [if_pos hs] at h
            have hk : j = k := by
              cases h
              rfl
            subst hk
            exact Or.inl ⟨rfl, s, rfl, hs⟩
          · rw [if_neg hs] at h
            rcases ih s (j + 1) k h with ⟨hk, t, ht0, hts⟩ | ⟨hk, t, ht1, ht2⟩
            · right
              have ht : t = s := by exact_mod_cast hts
              subst ht
              refine ⟨by omega, t, ?_, ?_⟩
              · have e1 : k - j - 1 = 0 := by omega
                rw [e1]
                rfl
              · have e2 : k - j = 1 := by omega
                rw [e2]
                simpa using ht0
            · right
              refine ⟨by omega, t, ?_, ?_⟩
              · have e1 : k - j - 1 = (k - j - 2) + 1 := by omega
                rw [e1, List.get?_cons_succ]
                have e3 : k - j - 2 = k - (j + 1) - 1 := by omega
                rw [e3]
                exact ht1
              · have e2 : k - j = (k - j - 1) + 1 := by omega
                rw [e2, List.get?_cons_succ]
                have e4 : k - j - 1 = k - (j + 1) := by omega
                rw [e4]
                exact ht2

/-! ### Claim theorems -/

/-- C1: enqueue adds the path to the pending-set and the FIFO if and only
if the path is not already pending or running (membership in the dedup
set, which a path keeps until its job completes); otherwise enqueue is a
no-op.  Consequently, when a path is enqueued twice before its first job
completes, the worker, which processes each FIFO entry exactly once,
executes the processing routine exactly once for that path. -/
theorem c1_enqueue_dedup (path : String) (s : QState) :
    (enqueue path s = s ↔ path ∈ s.queued)
    ∧ (path ∉ s.queued →
        (enqueue path s).queued = s.queued ++ [path]
        ∧ (enqueue path s).fifo = s.fifo ++ [path])
    ∧ (path ∉ s.queued → path ∉ s.fifo →
        (drain (enqueue path (enqueue path s))).count path = 1) := by
  refine ⟨⟨?_, ?_⟩, ?_, ?_⟩
  · intro h
    by_contra hmem
    have hq : (enqueue path s).queued = s.queued ++ [path] := by
      simp [enqueue, hmem]
    rw [h] at hq
    have hlen := congrArg List.length hq
    simp at hlen
  · intro h
    simp [enqueue, h]
  · intro h
    simp [enqueue, h]
  · intro h hf
    have h1 : enqueue path s
        = { queued := s.queued ++ [path], fifo := s.fifo ++ [path] } := by
      simp [enqueue, h]
    have h2 : enqueue path (enqueue path s) = enqueue path s := by
      rw [h1]
      simp [enqueue]
    rw [h2, h1, drain, drainFrom_eq]
    simp [List.count_append, List.count_eq_zero.mpr hf]

/-- C1 witness: from the empty queue state, enqueueing the same path twice
leads the worker to process it exactly once. -/
theorem c1_enqueue_dedup_inst :
    (drain (enqueue "/u/a.mkv" (enqueue "/u/a.mkv" (QState.mk [] [])))).count "/u/a.mkv"
      = 1 :=
  (c1_enqueue_dedup "/u/a.mkv" (QState.mk [] [])).2.2 (by simp) (by simp)

/-- C5: when the probed audio codec is aac, the chosen command is the pure
stream-copy rewrap (its full token list is stated, so it visibly carries
no re-encode flags); for any other probe result, including a failed probe
(acodec = none), the chosen command copies the video stream and re-encodes
the audio to aac, 2 channels, 128k, 48000 Hz. -/
theorem c5_transcode_command_selection (acodec : Option String) (src dst : String) :
    (acodec = some "aac" →
       transcodeCmd acodec src dst
         = ["ffmpeg", "-y", "-i", src, "-c", "copy", "-movflags", "+faststart", dst])
    ∧ (acodec ≠ some "aac" →
       transcodeCmd acodec src dst
         = ["ffmpeg", "-y", "-i", src, "-c:v", "copy", "-c:a", "aac", "-ac", "2",
            "-b:a", "128k", "-ar", "48000", "-movflags", "+faststart", dst]) := by
  constructor
  · intro h
    simp [transcodeCmd, copyCmd, h]
  · intro h
    simp [transcodeCmd, reencodeCmd, h]

/-- C5 witness: both branches at concrete paths, the aac rewrap and the
probe-failure re-encode. -/
theorem c5_transcode_command_selection_inst :
    transcodeCmd (some "aac") "/u/a.mkv" "/m/a/a.mp4"
      = ["ffmpeg", "-y", "-i", "/u/a.mkv", "-c", "copy", "-movflags", "+faststart",
         "/m/a/a.mp4"]
    ∧ transcodeCmd none "/u/a.mkv" "/m/a/a.mp4"
      = ["ffmpeg", "-y", "-i", "/u/a.mkv", "-c:v", "copy", "-c:a", "aac", "-ac", "2",
         "-b:a", "128k", "-ar", "48000", "-movflags", "+faststart", "/m/a/a.mp4"] :=
  ⟨(c5_transcode_command_selection (some "aac") "/u/a.mkv" "/m/a/a.mp4").1 rfl,
   (c5_transcode_command_selection none "/u/a.mkv" "/m/a/a.mp4").2 (by simp)⟩

/-- C10: for every path whose lowercased extension is outside the
supported set, process returns before touching anything: the filesystem
state is unchanged, so no subdirectory is created under the
published-media root and the source file is not removed. -/
theorem c10_unsupported_ext_noop (src : String) (env : Env) (fs : FS)
    (h : extOf src ∉ supportedExts) : process src env fs = fs := by
  simp [process, h]

/-- C10 witness: a text file in the intake directory is left alone and no
media entry appears. -/
theorem c10_unsupported_ext_noop_inst :
    process "/u/readme.txt" (Env.mk none true true true true)
        (FS.mk ["/u/readme.txt"] [] [])
      = FS.mk ["/u/readme.txt"] [] [] :=
  c10_unsupported_ext_noop "/u/readme.txt" (Env.mk none true true true true)
    (FS.mk ["/u/readme.txt"] [] []) (by decide)

/-- C2 counterexample: the claim also asserts that after a transcode
failure no entry for the name exists in the published-media directory,
but process runs os.makedirs(dest_dir) before the transcode (main.py line
113), so the per-title directory a exists (and is listed by the media
catalog) even though the transcode failed and no file was produced. -/
theorem c2_transcode_failure_creates_title_dir :
    process "/u/a.mkv" (Env.mk (some "aac") false false false false)
        (FS.mk ["/u/a.mkv"] [] [])
      = FS.mk ["/u/a.mkv"] ["a"] []
    ∧ "a" ∈ (process "/u/a.mkv" (Env.mk (some "aac") false false false false)
        (FS.mk ["/u/a.mkv"] [] [])).mediaDirs :=
  ⟨by decide, by decide⟩

/-- C2 amended: if the transcode fails, the intake directory is untouched
(the source file stays) and no file is added under the published-media
tree, in particular no progressive container for that name, though the
empty per-title directory itself may have been created; and the source is
removed from the intake directory only when the transcode succeeded. -/
theorem c2_transcode_failure_retains_source (src : String) (env : Env) (fs : FS) :
    (env.transcodeOk = false →
       (process src env fs).intake = fs.intake
       ∧ (process src env fs).mediaFiles = fs.mediaFiles)
    ∧ (src ∈ fs.intake → src ∉ (process src env fs).intake →
       env.transcodeOk = true) := by
  have key : env.transcodeOk = false →
      (process src env fs).intake = fs.intake
      ∧ (process src env fs).mediaFiles = fs.mediaFiles := by
    intro h
    unfold process
    split
    · rw [h]
      simp [addDir_intake, addDir_mediaFiles]
    · exact ⟨rfl, rfl⟩
  refine ⟨key, ?_⟩
  intro hmem hnot
  cases hok : env.transcodeOk with
  | true => rfl
  | false =>
      exfalso
      apply hnot
      rw [(key hok).1]
      exact hmem

/-- C2 witness: a failed transcode at a concrete input leaves the source
in the intake directory and publishes no file. -/
theorem c2_transcode_failure_retains_source_inst :
    (process "/u/b.mkv" (Env.mk none false true true true)
        (FS.mk ["/u/b.mkv"] [] [])).intake = ["/u/b.mkv"]
    ∧ (process "/u/b.mkv" (Env.mk none false true true true)
        (FS.mk ["/u/b.mkv"] [] [])).mediaFiles = [] :=
  (c2_transcode_failure_retains_source "/u/b.mkv" (Env.mk none false true true true)
    (FS.mk ["/u/b.mkv"] [] [])).1 rfl

/-- C3: evaluation at the failing input.  The size trace reads 5 and then
the file vanishes (FileNotFoundError), so the polling loop exits through
the vanished branch; the worker nevertheless falls through to
process(path) (the break only leaves the inner polling loop), which
creates the per-title directory media slash a before ffprobe and ffmpeg
fail on the missing file.  The claim (and the code message, file
disappeared before processing) say the job is abandoned with no later
pipeline stage running. -/
theorem c3_vanished_file_still_processed :
    stabilize [some 5, none] (-1) 0 = StabResult.vanished 1
    ∧ workerBody [some 5, none] "/u/a.mkv" (Env.mk none false false false false)
        (FS.mk ["/u/a.mkv"] [] [])
      = FS.mk ["/u/a.mkv"] ["a"] [] :=
  ⟨by decide, by decide⟩

/-- C4 counterexample: a failed audio probe (acodec none) with a
succeeding transcode.  The claim says a probe failure is fatal with no
later pipeline stage running and the source retained; in fact process
falls into the re-encode branch, publishes the mp4 and the HLS artifacts,
and removes the source from the intake directory. -/
theorem c4_probe_failure_not_fatal_cex :
    process "/u/a.mkv" (Env.mk none true true false false)
        (FS.mk ["/u/a.mkv"] [] [])
      = FS.mk [] ["a"] [("a", "a.mp4"), ("a", "hls/"), ("a", "hls/index.m3u8")]
    ∧ "/u/a.mkv" ∉ (process "/u/a.mkv" (Env.mk none true true false false)
        (FS.mk ["/u/a.mkv"] [] [])).intake :=
  ⟨by decide, by decide⟩

/-- C4 amended: a probe failure is not fatal for the file.  The pipeline
treats it like any non-target codec: the chosen command is the re-encode
command, and the run continues; if the transcode then succeeds the
progressive container is published and the source file is removed, and
only if the transcode itself fails is the source retained. -/
theorem c4_probe_failure_reencode_path (src dst : String) (env : Env) (fs : FS)
    (hext : extOf src ∈ supportedExts) (hprobe : env.acodec = none) :
    transcodeCmd env.acodec src dst = reencodeCmd src dst
    ∧ (env.transcodeOk = true →
        (nameOf src, nameOf src ++ ".mp4") ∈ (process src env fs).mediaFiles
        ∧ src ∉ (process src env fs).intake)
    ∧ (env.transcodeOk = false → (process src env fs).intake = fs.intake) := by
  refine ⟨by simp [transcodeCmd, hprobe], ?_, ?_⟩
  · intro hok
    constructor
    · simp only [process, hext, if_true, hok]
      exact publishSuccess_mp4_mem src (nameOf src) env (addDir (nameOf src) fs)
    · simp only [process, hext, if_true, hok]
      exact publishSuccess_src_removed src (nameOf src) env (addDir (nameOf src) fs)
  · intro hf
    simp [process, hext, hf, addDir_intake]

/-- C4 witness: the amended behavior at a concrete input with a failed
probe and a succeeding transcode. -/
theorem c4_probe_failure_reencode_path_inst :
    (nameOf "/u/a.mkv", nameOf "/u/a.mkv" ++ ".mp4")
      ∈ (process "/u/a.mkv" (Env.mk none true true false false)
          (FS.mk ["/u/a.mkv"] [] [])).mediaFiles
    ∧ "/u/a.mkv" ∉ (process "/u/a.mkv" (Env.mk none true true false false)
        (FS.mk ["/u/a.mkv"] [] [])).intake :=
  (c4_probe_failure_reencode_path "/u/a.mkv" "/m/a/a.mp4"
    (Env.mk none true true false false) (FS.mk ["/u/a.mkv"] [] [])
    (by decide) rfl).2.1 rfl

/-- C6: for an existing progressive container of size S (at least 100 so
the quoted ranges are in bounds): no Range header gives the status 200
response with Content-Length S and Accept-Ranges advertised; bytes=0-99
gives status 206 with Content-Range bytes 0-99/S and Content-Length 100;
bytes=500- on S = 1000 gives Content-Range bytes 500-999/1000 and
Content-Length 500; and any parsed request whose end exceeds S - 1 is
clamped to end = S - 1. -/
theorem c6_range_responses (S : Nat) (hS : 100 ≤ S) :
    streamVideo true S none = .full S true
    ∧ streamVideo true S (some "bytes=0-99")
        = .ranged 0 99 (contentRange 0 99 S) true 100
    ∧ streamVideo true 1000 (some "bytes=500-")
        = .ranged 500 999 "bytes 500-999/1000" true 500
    ∧ ∀ (h : String) (start e : Nat),
        parseRange h = some (start, some e) → (S : Int) - 1 < (e : Int) →
        streamVideo true S (some h)
          = .ranged start ((S : Int) - 1) (contentRange start ((S : Int) - 1) S) true
              ((S : Int) - 1 - (start : Int) + 1) := by
  refine ⟨rfl, ?_, by decide, ?_⟩
  · have hp : parseRange "bytes=0-99" = some (0, some 99) := by decide
    have he : resolvedEnd S (some 99) = 99 := by
      simp only [resolvedEnd]
      omega
    rw [streamVideo_parsed S "bytes=0-99" 0 (some 99) hp, he]
    norm_num
  · intro h start e hp hlt
    have he : resolvedEnd S (some e) = (S : Int) - 1 := by
      simp only [resolvedEnd]
      omega
    rw [streamVideo_parsed S h start (some e) hp, he]

/-- C6 witness: the concrete responses at S = 1000, including the clamp of
bytes=0-9999 to end 999. -/
theorem c6_range_responses_inst :
    streamVideo true 1000 none = .full 1000 true
    ∧ streamVideo true 1000 (some "bytes=0-99")
        = .ranged 0 99 (contentRange 0 99 1000) true 100
    ∧ streamVideo true 1000 (some "bytes=0-9999")
        = .ranged 0 ((1000 : Int) - 1) (contentRange 0 ((1000 : Int) - 1) 1000) true
            ((1000 : Int) - 1 - ((0 : Nat) : Int) + 1) := by
  have h := c6_range_responses 1000 (by norm_num)
  exact ⟨h.1, h.2.1, h.2.2.2 "bytes=0-9999" 0 9999 (by decide) (by norm_num)⟩

/-- C7 counterexample: a range header with no dash on an existing video.
The tuple unpacking of the split raises an uncaught ValueError, which
escapes the handler (modelled by the raised response); the only 4xx the
handler itself produces is the 404 for a missing file, so no client error
with a descriptive message is surfaced, refuting the claim. -/
theorem c7_malformed_range_cex :
    streamVideo true 1000 (some "bytes=123") = Resp.raised
    ∧ Resp.raised ≠ Resp.notFound :=
  ⟨by decide, by decide⟩

/-- C7 amended: for every request for an existing video whose range header
fails to parse (missing dash, wrong number of fields, non-numeric
fields), the handler raises an unhandled exception out of the streaming
operation instead of producing a 4xx client error. -/
theorem c7_malformed_range_raises (S : Nat) (h : String)
    (hp : parseRange h = none) :
    streamVideo true S (some h) = Resp.raised := by
  simp only [streamVideo, hp, if_true]

/-- C7 witness: the dashless header at a concrete size. -/
theorem c7_malformed_range_raises_inst :
    streamVideo true 1000 (some "bytes=123") = Resp.raised :=
  c7_malformed_range_raises 1000 "bytes=123" (by decide)

/-- C8 counterexample: the request bytes=500-100 on a 1000-byte file
parses fine; the code resolves start 500 and end 100 without validating
start against end, serving a 206 with a negative Content-Length of -399,
so the claimed invariant start less-or-equal end fails. -/
theorem c8_range_invariant_cex :
    streamVideo true 1000 (some "bytes=500-100")
      = Resp.ranged 500 100 "bytes 500-100/1000" true (-399)
    ∧ ¬ ((500 : Int) ≤ 100) :=
  ⟨by decide, by decide⟩

/-- C8 amended: for every parsed range request against a file of the
given size, the resolved offsets satisfy 0 less-or-equal start and end
less-or-equal size - 1 (end clamped when the client requests beyond EOF),
but start less-or-equal end is not enforced: the code never validates
start, so a request with start beyond the resolved end yields a negative
chunk. -/
theorem c8_range_invariant_clamp (S : Nat) (h : String) (start : Nat)
    (endOpt : Option Nat) (hp : parseRange h = some (start, endOpt)) :
    streamVideo true S (some h)
      = .ranged start (resolvedEnd S endOpt)
          (contentRange start (resolvedEnd S endOpt) S) true
          (resolvedEnd S endOpt - (start : Int) + 1)
    ∧ resolvedEnd S endOpt ≤ (S : Int) - 1
    ∧ (0 : Int) ≤ (start : Int) := by
  refine ⟨streamVideo_parsed S h start endOpt hp, ?_, by omega⟩
  cases endOpt with
  | none =>
      simp only [resolvedEnd]
      omega
  | some e =>
      simp only [resolvedEnd]
      omega

/-- C8 witness: the amended invariant at a concrete in-bounds request. -/
theorem c8_range_invariant_clamp_inst :
    streamVideo true 1000 (some "bytes=0-99")
      = .ranged 0 (resolvedEnd 1000 (some 99))
          (contentRange 0 (resolvedEnd 1000 (some 99)) 1000) true
          (resolvedEnd 1000 (some 99) - ((0 : Nat) : Int) + 1)
    ∧ resolvedEnd 1000 (some 99) ≤ (1000 : Int) - 1
    ∧ (0 : Int) ≤ ((0 : Nat) : Int) :=
  c8_range_invariant_clamp 1000 "bytes=0-99" 0 (some 99) (by decide)

/-- C9 counterexample: a file whose size is still increasing when first
observed (reads 5 then 6) and which then vanishes.  The polling loop
exits through the vanished branch after never having seen two consecutive
equal reads, yet the worker still invokes process, which creates the
per-title directory; so as stated over all traces the claim fails (the
same slip as the vanish bug of the worker). -/
theorem c9_stability_cex :
    stabilize [some 5, some 6, none] (-1) 0 = StabResult.vanished 2
    ∧ workerBody [some 5, some 6, none] "/u/c.mkv"
        (Env.mk none false false false false) (FS.mk ["/u/c.mkv"] [] [])
      = FS.mk ["/u/c.mkv"] ["c"] [] :=
  ⟨by decide, by decide⟩

/-- C9 amended: provided the file does not disappear during polling, the
processing routine is not invoked until the polled size has been stable:
whenever the polling loop exits through its stable branch at read k, then
k is at least 1 and reads k - 1 and k returned the same size, with one
full polling interval (the 2 second sleep) between them; and while the
loop keeps polling (trace exhausted without an exit) process has not been
invoked. -/
theorem c9_stability_before_processing (reads : List (Option Nat)) (src : String)
    (env : Env) (fs : FS) :
    (∀ k : Nat, stabilize reads (-1) 0 = .stable k →
       workerBody reads src env fs = process src env fs
       ∧ 1 ≤ k
       ∧ ∃ s : Nat, reads.get? (k - 1) = some (some s)
           ∧ reads.get? k = some (some s))
    ∧ (stabilize reads (-1) 0 = .hang → workerBody reads src env fs = fs) := by
  constructor
  · intro k h
    rcases stabilize_stable_spec reads (-1) 0 k h with ⟨_, s, _, hs⟩ | ⟨hk, s, h1, h2⟩
    · exfalso
      omega
    · refine ⟨by simp [workerBody, h], by omega, s, ?_, ?_⟩
      · simpa using h1
      · simpa using h2
  · intro h
    simp [workerBody, h]

/-- C9 witness: a trace that stabilizes at once (3 then 3) exits stable at
read 1 with both reads equal, and an exhausted trace has not called
process. -/
theorem c9_stability_before_processing_inst :
    (workerBody [some 3, some 3] "/u/d.mkv" (Env.mk (some "aac") true true false false)
        (FS.mk ["/u/d.mkv"] [] [])
      = process "/u/d.mkv" (Env.mk (some "aac") true true false false)
          (FS.mk ["/u/d.mkv"] [] []))
    ∧ workerBody [] "/u/d.mkv" (Env.mk (some "aac") true true false false)
        (FS.mk ["/u/d.mkv"] [] [])
      = FS.mk ["/u/d.mkv"] [] [] := by
  have ha := (c9_stability_before_processing [some 3, some 3] "/u/d.mkv"
      (Env.mk (some "aac") true true false false)
      (FS.mk ["/u/d.mkv"] [] [])).1 1 (by decide)
  have hb := (c9_stability_before_processing [] "/u/d.mkv"
      (Env.mk (some "aac") true true false false)
      (FS.mk ["/u/d.mkv"] [] [])).2 (by decide)
  exact ⟨ha.1, hb⟩

end MediaServer
